import Mathlib

/-!
A shallow embedding of the CML Transcriptie Tool (`transcribe.py`):
the progress-rescaling adapter `ProgressCapture`, the control flow of
`run_transcription` and of the processing section of `main`, and the
pure helpers (`format_timestamp`, `estimate_processing_time`,
`compress_audio_if_needed`, the export collision loop, the declared
phase sub-ranges).  Python floats are modelled as exact rationals;
raised Python errors are modelled as an explicit error type split into
`Exception`-class errors and errors outside that class (such as
`KeyboardInterrupt`); external subprocesses and whisperx calls are
modelled by their observable outcomes, taken as parameters.
-/

namespace Transcribe

/-- One recognized utterance from `result["segments"]`: start and end
times in seconds and the text.  (`stop` stands for the Python key
`"end"`, a reserved word in Lean.) -/
structure Segment where
  start : ℚ
  stop : ℚ
  text : String
deriving DecidableEq

/-- A raised Python error: either an error of class `Exception` (what
`except Exception` catches) or a `BaseException` outside that class,
such as `KeyboardInterrupt`. -/
inductive PyErr where
  | exc (msg : String)
  | keyboardInterrupt
deriving DecidableEq

/-- Whether `except Exception` catches this raised error. -/
def PyErr.isException : PyErr → Bool
  | .exc _ => true
  | .keyboardInterrupt => false

/-- The process-wide `sys.stdout` target: the original stream, or a
`ProgressCapture` instance installed for the named phase. -/
inductive Stdout where
  | original
  | captured (phase : String)
deriving DecidableEq

/- --- ProgressCapture (transcribe.py lines 62–102) --- -/

/-- Greedy match of the regex `(\d+\.?\d*)%` at the head of `cs`
(`ProgressCapture.write`, line 78).  Returns the digits before the
decimal point and, when a `.` was consumed, the digits after it.
Greedy matching without backtracking agrees with the regex engine
here: shortening `\d+` leaves the next character a digit (so `\.?`
and a greedy `\d*` lead back to the same position), and whenever the
`\.?`-taken branch fails at the `%` the dot-skipped branch faces the
`.` character and fails as well. -/
def matchPctAt (cs : List Char) : Option (List Char × Option (List Char)) :=
  let d1 := cs.takeWhile Char.isDigit
  let rest1 := cs.dropWhile Char.isDigit
  if d1.isEmpty then none
  else
    match rest1 with
    | '%' :: _ => some (d1, none)
    | '.' :: rest2 =>
      (match rest2.dropWhile Char.isDigit with
       | '%' :: _ => some (d1, some (rest2.takeWhile Char.isDigit))
       | _ => none)
    | _ => none

/-- `re.search` for the pattern above: try each position from the left
and return the first match. -/
def progressTokenSearch : List Char → Option (List Char × Option (List Char))
  | [] => none
  | c :: cs =>
    match matchPctAt (c :: cs) with
    | some tok => some tok
    | none => progressTokenSearch cs

/-- Value of a decimal digit string. -/
def digitsVal (ds : List Char) : ℕ :=
  ds.foldl (fun n c => 10 * n + (c.toNat - '0'.toNat)) 0

/-- Python `float` applied to the matched group: `"45"`, `"45.67"`,
also `"45."` (empty fraction). -/
def floatVal : List Char × Option (List Char) → ℚ
  | (d1, none) => (digitsVal d1 : ℚ)
  | (d1, some d2) => (digitsVal d1 : ℚ) + (digitsVal d2 : ℚ) / 10 ^ d2.length

/-- The `ProgressCapture` constructor state (lines 71–75). -/
structure ProgressCapture where
  phase_name : String
  phase_start : ℚ
  phase_end : ℚ

/-- Line 81: rescale a local percentage into the phase's sub-range. -/
def ProgressCapture.globalPct (pc : ProgressCapture) (localPct : ℚ) : ℚ :=
  pc.phase_start + localPct / 100 * (pc.phase_end - pc.phase_start)

/-- `ProgressCapture.write` (lines 77–82): on a matched percentage
token, rescale and render; we return the rendered global percentage,
`none` when the chunk is ignored. -/
def ProgressCapture.write (pc : ProgressCapture) (text : List Char) : Option ℚ :=
  match progressTokenSearch text with
  | some tok => some (pc.globalPct (floatVal tok))
  | none => none

/-- `ProgressCapture.finish` (lines 99–102) renders exactly the phase
end percentage. -/
def ProgressCapture.finishRender (pc : ProgressCapture) : ℚ :=
  pc.phase_end

/- --- format_timestamp and the duration/estimate logic (lines 125–157, 532–539) --- -/

/-- Python `x // y` on floats, fed to `int(...)`: floor division. -/
def pyFloorDiv (a b : ℚ) : ℤ :=
  Int.floor (a / b)

/-- Python `x % y` on floats: `x - y * (x // y)`, in `[0, y)` for `y > 0`. -/
def pyMod (a b : ℚ) : ℚ :=
  a - b * (Int.floor (a / b) : ℚ)

/-- Python `int(...)` on a float: truncation toward zero. -/
def pyInt (x : ℚ) : ℤ :=
  if x < 0 then Int.ceil x else Int.floor x

/-- Python `f"{n:02d}"`: pad with a leading zero up to width 2. -/
def pad2 (n : ℤ) : String :=
  if 0 ≤ n ∧ n < 10 then "0" ++ toString n else toString n

/-- `format_timestamp` (lines 125–132): `HH:MM:SS` once past one hour,
else `MM:SS`.  `int(x % m)` is a floor here because `x % m ∈ [0, m)`. -/
def format_timestamp (seconds : ℚ) : String :=
  let h : ℤ := pyFloorDiv seconds 3600
  let m : ℤ := Int.floor (pyMod seconds 3600 / 60)
  let s : ℤ := Int.floor (pyMod seconds 60)
  if 0 < h then pad2 h ++ ":" ++ pad2 m ++ ":" ++ pad2 s
  else pad2 m ++ ":" ++ pad2 s

/-- `RTF_MAP` (lines 50–57), decimal constants as exact rationals. -/
def RTF_MAP : List (String × ℚ) :=
  [("tiny", 3/5), ("base", 1), ("small", 8/5),
   ("medium", 3), ("large", 5), ("large-v3", 5)]

/-- Rendering of `f"{x:.1f}"` for the hour estimate: one decimal.
(The source formats a float; we render the rounded rational.  The exact
tie-breaking of binary-float formatting is immaterial to every claim.) -/
def oneDecimalStr (x : ℚ) : String :=
  let t : ℤ := round (x * 10)
  toString (t / 10) ++ "." ++ toString (t % 10)

/-- `estimate_processing_time` (lines 148–157). -/
def estimate_processing_time (duration_seconds : ℚ) (model_size : String) : String :=
  let rtf := (RTF_MAP.lookup model_size).getD 3
  let estimated := duration_seconds * rtf
  if estimated < 60 then "~" ++ toString (pyInt estimated) ++ " seconden"
  else if estimated < 3600 then "~" ++ toString (pyInt (estimated / 60)) ++ " minuten"
  else "~" ++ oneDecimalStr (estimated / 3600) ++ " uur"

/-- The duration string of `main` (lines 532–539).  The probe result is
`none` when `get_duration_ffprobe` failed (non-numeric output raises in
`float(...)` and is caught, returning `None`); `if duration:` is Python
truthiness, so `None` and `0.0` take the `else` branch. -/
def duration_str_of (probe : Option ℚ) : String :=
  match probe with
  | none => "Onbekend"
  | some d => if d ≠ 0 then format_timestamp d else "Onbekend"

/-- The processing-time estimate printed by `main` (lines 532–539):
only computed and shown in the truthy branch. -/
def estimate_shown (probe : Option ℚ) (model_size : String) : Option String :=
  match probe with
  | none => none
  | some d => if d ≠ 0 then some (estimate_processing_time d model_size) else none

/- --- convert_video_to_audio and compress_audio_if_needed (lines 212–273) --- -/

/-- One ffmpeg stderr line with a `time=` marker, elapsed `current`
seconds (line 236–243): render only under `if time_match and duration
and duration > 0` (truthiness makes this `0 < duration`), with
`pct = min(current/duration*100, 100)` and `overall = 5 + pct/100*10`. -/
def ffmpegLineRender (duration : Option ℚ) (current : ℚ) : Option ℚ :=
  match duration with
  | some d => if 0 < d then some (5 + min (current / d * 100) 100 / 100 * 10) else none
  | none => none

/-- `convert_video_to_audio` (lines 212–251): the rendered percentages
(loop renders, then an unconditional `15.00` on success) and the
outcome (non-zero ffmpeg exit raises).  `times` are the elapsed seconds
parsed from the `time=HH:MM:SS.frac` markers, hence non-negative. -/
def convert_video_to_audio (duration : Option ℚ) (times : List ℚ) (returncode : ℤ) :
    List ℚ × Except PyErr Unit :=
  let loopRenders := times.filterMap (ffmpegLineRender duration)
  if returncode ≠ 0 then (loopRenders, Except.error (PyErr.exc "ffmpeg video conversie mislukt"))
  else (loopRenders ++ [15], Except.ok ())

/-- Whether `compress_audio_if_needed` returned the original path or
invoked the ffmpeg re-encoding. -/
inductive CompressAction where
  | returnedOriginal
  | invokedFfmpeg
deriving DecidableEq

/-- `compress_audio_if_needed` (lines 254–273): compress unless the
size in MB is strictly below 500. -/
def compress_audio_if_needed (sizeBytes : ℚ) : CompressAction :=
  let file_size_mb := sizeBytes / (1024 * 1024)
  if file_size_mb < 500 then CompressAction.returnedOriginal
  else CompressAction.invokedFfmpeg

/- --- run_transcription (lines 278–370) --- -/

/-- Outcomes of the external whisperx calls inside `run_transcription`:
the batched `model.transcribe` call (segments plus the optionally
reported language of `result.get("language", language)`), and the
combined `load_align_model`/`align` calls of the alignment `try` block
(an error from either lands in the same handler). -/
structure TransEnv where
  transcribe : Except PyErr (List Segment × Option String)
  alignCalls : Except PyErr (List Segment)

/-- What `run_transcription` leaves behind: its return value (or the
propagated error) and the final `sys.stdout` target, plus whether the
alignment-failure warning was printed. -/
structure RTResult where
  result : Except PyErr (List Segment × String)
  finalStdout : Stdout
  warned : Bool

/-- `run_transcription`, phases 3 and 4 (lines 313–370).  Phase 3
redirects stdout to a `ProgressCapture` and restores it in `finally`,
so it is restored on success and on every raised error.  Phase 4 uses
`try`/`except Exception`/`else`: stdout is restored in the handler (which
also substitutes the unaligned segments and warns) and in the `else`
branch, so an error outside class `Exception` (e.g. `KeyboardInterrupt`)
propagates while stdout still points at the capture object. -/
def run_transcription (language : String) (env : TransEnv) (initStdout : Stdout) : RTResult :=
  let old := initStdout
  -- sys.stdout = ProgressCapture("Transcriptie", 15, 70)
  match env.transcribe with
  | .error e => ⟨.error e, old, false⟩
  | .ok (segments, detectedOpt) =>
    let detected := detectedOpt.getD language
    -- sys.stdout = ProgressCapture("Uitlijning", 70, 90)
    match env.alignCalls with
    | .ok alignedSegments => ⟨.ok (alignedSegments, detected), old, false⟩
    | .error e =>
      if e.isException then ⟨.ok (segments, detected), old, true⟩
      else ⟨.error e, Stdout.captured "Uitlijning", false⟩

/- --- the processing section of main (lines 546–623) --- -/

/-- Observable events of the processing section: the export step being
invoked with a segment list, and the workspace removal of the
`finally` block. -/
inductive Event where
  | exportStep (segments : List Segment)
  | cleanup
deriving DecidableEq

/-- How the processing section ends: normal completion, the
`except KeyboardInterrupt` branch, or the `except Exception` branch. -/
inductive Outcome where
  | success
  | interrupted
  | errorReported (msg : String)
deriving DecidableEq

/-- Which `except` branch of `main` catches a raised error. -/
def catchOutcome : PyErr → Outcome
  | .keyboardInterrupt => Outcome.interrupted
  | .exc m => Outcome.errorReported m

/-- Outcomes of the external steps of `main`'s `try` block. -/
structure MainEnv where
  isVideo : Bool
  convertOutcome : Except PyErr Unit
  compressOutcome : Except PyErr Unit
  language : String
  transEnv : TransEnv
  exportOutcome : Except PyErr Unit

/-- The trace of events and the outcome of one run. -/
structure MainResult where
  trace : List Event
  outcome : Outcome
deriving DecidableEq

/-- The processing section of `main` (lines 546–623): the `try` body
runs video conversion (when the input is a video), compression,
transcription and export in order; `except KeyboardInterrupt` and
`except Exception` report without re-raising; the `finally` block
removes the temp workspace on every exit path, so every branch's trace
carries exactly one `cleanup` event. -/
def mainProcess (env : MainEnv) : MainResult :=
  match (if env.isVideo then env.convertOutcome else Except.ok ()) with
  | .error e => ⟨[Event.cleanup], catchOutcome e⟩
  | .ok _ =>
    match env.compressOutcome with
    | .error e => ⟨[Event.cleanup], catchOutcome e⟩
    | .ok _ =>
      match (run_transcription env.language env.transEnv Stdout.original).result with
      | .error e => ⟨[Event.cleanup], catchOutcome e⟩
      | .ok (segments, _) =>
        match env.exportOutcome with
        | .error e => ⟨[Event.exportStep segments, Event.cleanup], catchOutcome e⟩
        | .ok _ => ⟨[Event.exportStep segments, Event.cleanup], Outcome.success⟩

/- --- declared phase sub-ranges and the full-run render sequence --- -/

/-- The five phase sub-ranges declared across the pipeline: the
`print_progress_bar` pairs 0/10 (model load) and 10/15 (audio load) and
the `ProgressCapture` ranges 15–70 (inference) and 70–90 (alignment) in
`run_transcription`, and the export bars 90/100 in `main`. -/
def pipelinePhaseRanges : List (ℚ × ℚ) :=
  [(0, 10), (10, 15), (15, 70), (70, 90), (90, 100)]

/-- The sequence of global percentages rendered over one fully
successful run: the video-conversion renders (when the input is a
video, with ffmpeg exiting 0), then model load `0/10`, audio load
`10/15`, the inference captures rescaled into 15–70 with the terminal
`finish()` at 70, the alignment captures rescaled into 70–90 with
`finish()` at 90, and the export bars `90/100`.  `inferLocals` and
`alignLocals` are the matched local percentages the wrapped calls
print. -/
def runRenders (isVideo : Bool) (duration : Option ℚ) (times : List ℚ)
    (inferLocals alignLocals : List ℚ) : List ℚ :=
  (if isVideo then (convert_video_to_audio duration times 0).1 else []) ++
    ([0, 10, 10, 15] ++
      ((inferLocals.map (ProgressCapture.globalPct ⟨"Transcriptie", 15, 70⟩) ++ [70]) ++
        ((alignLocals.map (ProgressCapture.globalPct ⟨"Uitlijning", 70, 90⟩) ++ [90]) ++
          [90, 100])))

/- --- export collision naming (main, lines 576–583) --- -/

/-- The body of the collision `while` loop: the current `output_path`
and `counter`, with the set of existing files as a list and a fuel
bound standing in for the finite filesystem (the Python loop has no
bound of its own). -/
def resolve_from (existing : List String) (file_stem : String) :
    ℕ → String → ℕ → Option String
  | 0, _, _ => none
  | fuel + 1, output_path, counter =>
    if output_path ∈ existing then
      resolve_from existing file_stem fuel
        (file_stem ++ "_" ++ Nat.repr counter ++ ".docx") (counter + 1)
    else some output_path

/-- Lines 576–583: start from `<stem>.docx` with `counter = 1`. -/
def resolve_output_path (existing : List String) (file_stem : String) (fuel : ℕ) :
    Option String :=
  resolve_from existing file_stem fuel (file_stem ++ ".docx") 1

/- --- concrete inputs used by witnesses --- -/

/-- Three concrete segments, as in the alignment-failure scenario. -/
def segsThree : List Segment :=
  [⟨0, 1, "een"⟩, ⟨1, 2, "twee"⟩, ⟨2, 3, "drie"⟩]

/-- A concrete run in which the align calls raise an `Exception` while
everything else succeeds. -/
def envAlignFail : MainEnv :=
  ⟨false, Except.ok (), Except.ok (), "nl",
   ⟨Except.ok (segsThree, some "nl"), Except.error (PyErr.exc "No align model")⟩,
   Except.ok ()⟩

/- --- helper lemmas --- -/

/-- A matched percentage token has a non-negative value: the pattern
has no sign, so the parsed digits give a non-negative rational. -/
lemma floatVal_nonneg (tok : List Char × Option (List Char)) : 0 ≤ floatVal tok := by
  rcases tok with ⟨d1, _ | d2⟩
  · simp [floatVal]
  · have h2 : (0 : ℚ) ≤ (digitsVal d2 : ℚ) / 10 ^ d2.length :=
      div_nonneg (by positivity) (by positivity)
    simpa [floatVal] using add_nonneg (by positivity) h2

/-- Rescaling keeps the phase start as a lower bound when the local
percentage is non-negative. -/
lemma globalPct_lower (pc : ProgressCapture) (h : pc.phase_start ≤ pc.phase_end)
    {p : ℚ} (hp : 0 ≤ p) : pc.phase_start ≤ pc.globalPct p := by
  have key : 0 ≤ p / 100 * (pc.phase_end - pc.phase_start) :=
    mul_nonneg (by positivity) (sub_nonneg.2 h)
  unfold ProgressCapture.globalPct
  linarith

/-- Rescaling keeps the phase end as an upper bound when the local
percentage is at most 100. -/
lemma globalPct_upper (pc : ProgressCapture) (h : pc.phase_start ≤ pc.phase_end)
    {p : ℚ} (hp : p ≤ 100) : pc.globalPct p ≤ pc.phase_end := by
  have key : 0 ≤ (100 - p) * (pc.phase_end - pc.phase_start) :=
    mul_nonneg (by linarith) (sub_nonneg.2 h)
  unfold ProgressCapture.globalPct
  nlinarith

/-- Rescaling is monotone in the local percentage. -/
lemma globalPct_mono (pc : ProgressCapture) (h : pc.phase_start ≤ pc.phase_end)
    {p q : ℚ} (hpq : p ≤ q) : pc.globalPct p ≤ pc.globalPct q := by
  have key : 0 ≤ (q - p) * (pc.phase_end - pc.phase_start) :=
    mul_nonneg (by linarith) (sub_nonneg.2 h)
  unfold ProgressCapture.globalPct
  nlinarith

/-- Two non-decreasing blocks concatenate to a non-decreasing sequence
when a middle value separates them. -/
lemma pairwise_le_append {l₁ l₂ : List ℚ} {m : ℚ}
    (h₁ : List.Pairwise (· ≤ ·) l₁) (h₂ : List.Pairwise (· ≤ ·) l₂)
    (b₁ : ∀ x ∈ l₁, x ≤ m) (b₂ : ∀ y ∈ l₂, m ≤ y) :
    List.Pairwise (· ≤ ·) (l₁ ++ l₂) :=
  List.pairwise_append.mpr ⟨h₁, h₂, fun x hx y hy => le_trans (b₁ x hx) (b₂ y hy)⟩

/-- Every render of one phase block (the rescaled locals followed by
the terminal `finish()` render) lies in the phase's sub-range. -/
lemma phase_block_bounds (nm : String) (s e : ℚ) (hse : s ≤ e) (locals : List ℚ)
    (hb : ∀ p ∈ locals, 0 ≤ p ∧ p ≤ 100) :
    ∀ x ∈ locals.map (ProgressCapture.globalPct ⟨nm, s, e⟩) ++ [e], s ≤ x ∧ x ≤ e := by
  intro x hx
  rcases List.mem_append.mp hx with hx | hx
  · rcases List.mem_map.mp hx with ⟨p, hp, rfl⟩
    exact ⟨globalPct_lower _ hse (hb p hp).1, globalPct_upper _ hse (hb p hp).2⟩
  · have hxe : x = e := by simpa using hx
    subst hxe
    exact ⟨hse, le_refl _⟩

/-- One phase block renders a non-decreasing sequence when the locals
are non-decreasing and within `[0, 100]`. -/
lemma phase_block_pairwise (nm : String) (s e : ℚ) (hse : s ≤ e) (locals : List ℚ)
    (hm : List.Pairwise (· ≤ ·) locals) (hb : ∀ p ∈ locals, 0 ≤ p ∧ p ≤ 100) :
    List.Pairwise (· ≤ ·)
      (locals.map (ProgressCapture.globalPct ⟨nm, s, e⟩) ++ [e]) := by
  apply pairwise_le_append
    (List.pairwise_map.mpr (hm.imp (fun hab => globalPct_mono _ hse hab)))
    (by simp)
  · intro x hx
    rcases List.mem_map.mp hx with ⟨p, hp, rfl⟩
    exact globalPct_upper _ hse (hb p hp).2
  · intro y hy
    have hye : y = e := by simpa using hy
    exact le_of_eq hye.symm

/- --- claim theorems --- -/

/-- C1: for every aggregator constructed with `0 ≤ s < e ≤ 100` and
every ingested chunk whose matched percentage token has value
`p ∈ [0, 100]`, `write` computes and renders exactly
`s + (p/100)*(e-s)`, which lies within `[s, e]`; chunks with no
matching token are ignored (no render, no error). -/
theorem write_rescales_into_phase_range (nm : String) (s e p : ℚ)
    (text : List Char) (tok : List Char × Option (List Char))
    (h0 : 0 ≤ s) (hse : s < e) (h100 : e ≤ 100)
    (hm : progressTokenSearch text = some tok) (hv : floatVal tok = p)
    (hp0 : 0 ≤ p) (hp1 : p ≤ 100) :
    ProgressCapture.write ⟨nm, s, e⟩ text = some (s + p / 100 * (e - s)) ∧
    s ≤ s + p / 100 * (e - s) ∧ s + p / 100 * (e - s) ≤ e ∧
    ∀ other : List Char, progressTokenSearch other = none →
      ProgressCapture.write ⟨nm, s, e⟩ other = none := by
  have hw : ProgressCapture.write ⟨nm, s, e⟩ text = some (s + p / 100 * (e - s)) := by
    unfold ProgressCapture.write
    rw [hm, ← hv]
    rfl
  have hlow := globalPct_lower ⟨nm, s, e⟩ (le_of_lt hse) hp0
  have hhigh := globalPct_upper ⟨nm, s, e⟩ (le_of_lt hse) hp1
  refine ⟨hw, hlow, hhigh, ?_⟩
  intro other hother
  unfold ProgressCapture.write
  rw [hother]

/-- Witness for C1 at the inference phase range `[15, 70]` and the
chunk `"Progress: 45.67%..."`, whose token value is `45.67`. -/
theorem write_rescales_into_phase_range_witness :
    ProgressCapture.write ⟨"Transcriptie", 15, 70⟩ ("Progress: 45.67%...".data)
        = some (15 + (4567 / 100) / 100 * (70 - 15)) ∧
    (15 : ℚ) ≤ 15 + (4567 / 100) / 100 * (70 - 15) ∧
    ((15 : ℚ) + (4567 / 100) / 100 * (70 - 15)) ≤ 70 ∧
    ∀ other : List Char, progressTokenSearch other = none →
      ProgressCapture.write ⟨"Transcriptie", 15, 70⟩ other = none :=
  write_rescales_into_phase_range "Transcriptie" 15 70 (4567 / 100)
    ("Progress: 45.67%...".data) (['4', '5'], some ['6', '7'])
    (by norm_num) (by norm_num) (by norm_num) (by rfl)
    (by
      have h1 : digitsVal ['4', '5'] = 45 := rfl
      have h2 : digitsVal ['6', '7'] = 67 := rfl
      simp only [floatVal, h1, h2, List.length_cons, List.length_nil]
      norm_num)
    (by norm_num) (by norm_num)

/-- C10: with `phase_start < phase_end`, every rendered global
percentage is at least `phase_start` (the pattern cannot match a
negative number), but no upper clamp is applied: a matched local
percentage strictly above 100 renders strictly above `phase_end`. -/
theorem write_no_upper_clamp (nm : String) (s e : ℚ) (text : List Char)
    (tok : List Char × Option (List Char))
    (hse : s < e) (hm : progressTokenSearch text = some tok) :
    0 ≤ floatVal tok ∧
    ProgressCapture.write ⟨nm, s, e⟩ text
        = some (ProgressCapture.globalPct ⟨nm, s, e⟩ (floatVal tok)) ∧
    s ≤ ProgressCapture.globalPct ⟨nm, s, e⟩ (floatVal tok) ∧
    (100 < floatVal tok → e < ProgressCapture.globalPct ⟨nm, s, e⟩ (floatVal tok)) := by
  refine ⟨floatVal_nonneg tok, ?_, ?_, ?_⟩
  · unfold ProgressCapture.write
    rw [hm]
  · exact globalPct_lower ⟨nm, s, e⟩ (le_of_lt hse) (floatVal_nonneg tok)
  · intro hover
    have key : 0 < (floatVal tok - 100) * (e - s) :=
      mul_pos (by linarith) (by linarith)
    unfold ProgressCapture.globalPct
    nlinarith

/-- Witness for C10 at the alignment phase range `[70, 90]` and the
chunk `"Progress: 120.5%"`, whose token value `120.5` exceeds 100. -/
theorem write_no_upper_clamp_witness :
    0 ≤ floatVal (['1', '2', '0'], some ['5']) ∧
    ProgressCapture.write ⟨"Uitlijning", 70, 90⟩ ("Progress: 120.5%".data)
        = some (ProgressCapture.globalPct ⟨"Uitlijning", 70, 90⟩
            (floatVal (['1', '2', '0'], some ['5']))) ∧
    (70 : ℚ) ≤ ProgressCapture.globalPct ⟨"Uitlijning", 70, 90⟩
        (floatVal (['1', '2', '0'], some ['5'])) ∧
    (100 < floatVal (['1', '2', '0'], some ['5']) →
      (90 : ℚ) < ProgressCapture.globalPct ⟨"Uitlijning", 70, 90⟩
          (floatVal (['1', '2', '0'], some ['5']))) :=
  write_no_upper_clamp "Uitlijning" 70 90 ("Progress: 120.5%".data)
    (['1', '2', '0'], some ['5']) (by norm_num) (by rfl)

/-- C2: in every run that reaches the alignment phase, if the align
calls raise an error (of Python class `Exception`, as a missing
alignment model or a runtime failure is), the error is caught, the
warning is surfaced, `run_transcription` returns exactly the unaligned
segments from the inference phase, and the run continues to the export
step with those segments. -/
theorem alignment_failure_degrades_gracefully (env : MainEnv)
    (segments : List Segment) (detectedOpt : Option String) (e : PyErr)
    (hconv : (if env.isVideo then env.convertOutcome else Except.ok ()) = Except.ok ())
    (hcomp : env.compressOutcome = Except.ok ())
    (ht : env.transEnv.transcribe = Except.ok (segments, detectedOpt))
    (ha : env.transEnv.alignCalls = Except.error e)
    (he : e.isException = true) :
    (run_transcription env.language env.transEnv Stdout.original).result
        = Except.ok (segments, detectedOpt.getD env.language) ∧
    (run_transcription env.language env.transEnv Stdout.original).warned = true ∧
    Event.exportStep segments ∈ (mainProcess env).trace := by
  have hrt : run_transcription env.language env.transEnv Stdout.original =
      ⟨Except.ok (segments, detectedOpt.getD env.language), Stdout.original, true⟩ := by
    unfold run_transcription
    rw [ht, ha]
    simp [he]
  refine ⟨by rw [hrt], by rw [hrt], ?_⟩
  unfold mainProcess
  rw [hconv, hcomp, hrt]
  cases hex : env.exportOutcome <;> simp

/-- Witness for C2: a run with three segments and align calls raising
an `Exception`; the three unaligned segments come back and reach the
export step. -/
theorem alignment_failure_degrades_gracefully_witness :
    (run_transcription "nl" envAlignFail.transEnv Stdout.original).result
        = Except.ok (segsThree, "nl") ∧
    (run_transcription "nl" envAlignFail.transEnv Stdout.original).warned = true ∧
    Event.exportStep segsThree ∈ (mainProcess envAlignFail).trace :=
  alignment_failure_degrades_gracefully envAlignFail segsThree (some "nl")
    (PyErr.exc "No align model") (by rfl) (by rfl) (by rfl) (by rfl) (by rfl)

/-- C3 counterexample: a `KeyboardInterrupt` raised by the align calls
is outside Python's `Exception` class, so the alignment phase's
`except`/`else` restoration is skipped and `run_transcription`
propagates while stdout still points at the capture object — the claim
that the redirection is undone for every kind of raised exception fails
at this input. -/
theorem stdout_not_restored_on_interrupt :
    (run_transcription "nl"
        ⟨Except.ok ([], none), Except.error PyErr.keyboardInterrupt⟩
        Stdout.original).finalStdout ≠ Stdout.original := by
  decide

/-- C3 amended: the original stdout is restored on every path — the
inference phase's `finally` covers success and every raise, and the
alignment phase covers success and every `Exception`-class raise —
except exactly when the align calls raise an error outside the
`Exception` class (such as `KeyboardInterrupt`) after a successful
inference phase. -/
theorem stdout_restore_characterization (language : String) (env : TransEnv) :
    (run_transcription language env Stdout.original).finalStdout = Stdout.original ↔
      ¬ ∃ pr e, env.transcribe = Except.ok pr ∧ env.alignCalls = Except.error e ∧
          e.isException = false := by
  rcases env with ⟨t, a⟩
  cases t with
  | error e0 => simp [run_transcription]
  | ok pr =>
    rcases pr with ⟨segs, dOpt⟩
    cases a with
    | ok asegs => simp [run_transcription]
    | error e1 =>
      cases he : e1.isException <;> simp [run_transcription, he]

/-- C4: on every exit path of the processing section — success, a
caught error, user interruption — the workspace removal of the
`finally` block appears exactly once in the run's trace. -/
theorem workspace_cleanup_exactly_once (env : MainEnv) :
    ((mainProcess env).trace).count Event.cleanup = 1 := by
  unfold mainProcess
  cases h1 : (if env.isVideo then env.convertOutcome else Except.ok ()) with
  | error e => rfl
  | ok u =>
    cases h2 : env.compressOutcome with
    | error e => rfl
    | ok u2 =>
      cases h3 : (run_transcription env.language env.transEnv Stdout.original).result with
      | error e => rfl
      | ok pr =>
        rcases pr with ⟨segs, lang⟩
        cases h4 : env.exportOutcome with
        | error e => rfl
        | ok u3 => rfl

/-- C5: the five declared phase sub-ranges are contiguous (each end
equals the next start), increasing, pairwise non-overlapping in the
declared order, and their union is exactly `[0, 100]`. -/
theorem phase_ranges_partition :
    List.Chain' (fun a b : ℚ × ℚ => a.2 = b.1) pipelinePhaseRanges ∧
    (∀ r ∈ pipelinePhaseRanges, r.1 < r.2) ∧
    List.Pairwise (fun a b : ℚ × ℚ => a.2 ≤ b.1) pipelinePhaseRanges ∧
    ∀ x : ℚ, (∃ r ∈ pipelinePhaseRanges, r.1 ≤ x ∧ x ≤ r.2) ↔ (0 ≤ x ∧ x ≤ 100) := by
  refine ⟨?_, ?_, ?_, ?_⟩
  · simp only [pipelinePhaseRanges, List.chain'_cons, List.chain'_singleton]
    norm_num
  · decide
  · decide
  · intro x
    constructor
    · rintro ⟨r, hr, h1, h2⟩
      simp only [pipelinePhaseRanges, List.mem_cons, List.not_mem_nil, or_false] at hr
      rcases hr with rfl | rfl | rfl | rfl | rfl <;> norm_num at h1 h2 <;>
        exact ⟨by linarith, by linarith⟩
    · rintro ⟨h0, h100⟩
      by_cases hx1 : x ≤ 10
      · exact ⟨(0, 10), by simp [pipelinePhaseRanges], h0, hx1⟩
      · by_cases hx2 : x ≤ 15
        · exact ⟨(10, 15), by simp [pipelinePhaseRanges], show (10 : ℚ) ≤ x by linarith, hx2⟩
        · by_cases hx3 : x ≤ 70
          · exact ⟨(15, 70), by simp [pipelinePhaseRanges], show (15 : ℚ) ≤ x by linarith, hx3⟩
          · by_cases hx4 : x ≤ 90
            · exact ⟨(70, 90), by simp [pipelinePhaseRanges], show (70 : ℚ) ≤ x by linarith, hx4⟩
            · exact ⟨(90, 100), by simp [pipelinePhaseRanges], show (90 : ℚ) ≤ x by linarith, h100⟩

/-- C7 counterexample: a probe result of −5 seconds is negative but
truthy in Python, so `main` does not fall back to "Onbekend": the
wrapped float modulo arithmetic formats it as "59:55". -/
theorem negative_probe_duration_not_unknown :
    duration_str_of (some (-5)) = "59:55" ∧
    duration_str_of (some (-5)) ≠ "Onbekend" := by
  have hne : ((-5 : ℚ) ≠ 0) := by norm_num
  have hfd : pyFloorDiv (-5 : ℚ) 3600 = -1 := by
    unfold pyFloorDiv
    norm_num
  have hm : Int.floor (pyMod (-5 : ℚ) 3600 / 60) = 59 := by
    unfold pyMod
    norm_num
  have hs : Int.floor (pyMod (-5 : ℚ) 60) = 55 := by
    unfold pyMod
    norm_num
  have h : duration_str_of (some (-5)) = "59:55" := by
    simp only [duration_str_of, if_pos hne, format_timestamp, hfd, hm, hs]
    norm_num [pad2]
    rfl
  refine ⟨h, by rw [h]; decide⟩

/-- C7 amended: a non-numeric (`None`) or zero probe result raises
nothing and falls back — duration string "Onbekend" and no time
estimate; for every probe result ≤ 0 the conversion-phase progress
rendering is suppressed (only the unconditional terminal render
remains on success) while the conversion outcome itself is entirely
independent of the probed duration.  A negative probe result, however,
is truthy and is formatted instead of falling back. -/
theorem probe_fallback_nonpositive (d : ℚ) (hd : d ≤ 0) (times : List ℚ) (rc : ℤ)
    (dur2 : Option ℚ) (times2 : List ℚ) :
    duration_str_of none = "Onbekend" ∧
    duration_str_of (some 0) = "Onbekend" ∧
    estimate_shown none "medium" = none ∧
    estimate_shown (some 0) "medium" = none ∧
    (convert_video_to_audio (some d) times rc).1 = (if rc = 0 then [15] else []) ∧
    (convert_video_to_audio none times rc).1 = (if rc = 0 then [15] else []) ∧
    (convert_video_to_audio (some d) times rc).2 = (convert_video_to_audio dur2 times2 rc).2 := by
  have hnone : ∀ c, ffmpegLineRender (some d) c = none := by
    intro c
    show (if 0 < d then some (5 + min (c / d * 100) 100 / 100 * 10) else none) = none
    rw [if_neg (not_lt.mpr hd)]
  have hmap : times.filterMap (ffmpegLineRender (some d)) = [] :=
    List.filterMap_eq_nil_iff.mpr (fun a _ => hnone a)
  have hmapn : ∀ ts : List ℚ, ts.filterMap (ffmpegLineRender none) = [] := by
    intro ts
    exact List.filterMap_eq_nil_iff.mpr (fun a _ => rfl)
  refine ⟨rfl, by simp [duration_str_of], rfl, by simp [estimate_shown], ?_, ?_, ?_⟩
  · simp only [convert_video_to_audio, hmap]
    by_cases hrc : rc = 0 <;> simp [hrc]
  · simp only [convert_video_to_audio, hmapn]
    by_cases hrc : rc = 0 <;> simp [hrc]
  · simp only [convert_video_to_audio]
    by_cases hrc : rc = 0 <;> simp [hrc]

/-- Witness for C7 amended at probe result −5 with one ffmpeg `time=`
marker and a successful conversion. -/
theorem probe_fallback_nonpositive_witness :
    duration_str_of none = "Onbekend" ∧
    duration_str_of (some 0) = "Onbekend" ∧
    estimate_shown none "medium" = none ∧
    estimate_shown (some 0) "medium" = none ∧
    (convert_video_to_audio (some (-5)) [10] 0).1 = (if (0 : ℤ) = 0 then [15] else []) ∧
    (convert_video_to_audio none [10] 0).1 = (if (0 : ℤ) = 0 then [15] else []) ∧
    (convert_video_to_audio (some (-5)) [10] 0).2 = (convert_video_to_audio (some 2) [1, 2] 0).2 :=
  probe_fallback_nonpositive (-5) (by norm_num) [10] 0 (some 2) [1, 2]

/-- C8 counterexample: an input at exactly 500 MB is at the threshold,
yet the code compresses it (`file_size_mb < 500` is false), so the
claim that inputs at or below the threshold are returned unchanged
fails at this input. -/
theorem compress_at_exact_threshold :
    (500 * 1024 * 1024 : ℚ) ≤ 500 * 1024 * 1024 ∧
    compress_audio_if_needed (500 * 1024 * 1024) ≠ CompressAction.returnedOriginal := by
  have h : ¬ ((500 * 1024 * 1024 : ℚ) / (1024 * 1024) < 500) := by norm_num
  refine ⟨le_refl _, ?_⟩
  simp only [compress_audio_if_needed, if_neg h]
  simp

/-- C8 amended: compression is invoked exactly when the size in MB is
at least 500 — strictly below the threshold the original path is
returned without invoking ffmpeg, at or above it the re-encoding runs;
in particular 501 MB triggers it and 499 MB does not. -/
theorem compress_threshold_characterization (sizeBytes : ℚ) :
    (compress_audio_if_needed sizeBytes = CompressAction.invokedFfmpeg ↔
        500 ≤ sizeBytes / (1024 * 1024)) ∧
    compress_audio_if_needed (501 * 1024 * 1024) = CompressAction.invokedFfmpeg ∧
    compress_audio_if_needed (499 * 1024 * 1024) = CompressAction.returnedOriginal := by
  refine ⟨?_, ?_, ?_⟩
  · unfold compress_audio_if_needed
    by_cases h : sizeBytes / (1024 * 1024) < 500
    · rw [if_pos h]
      exact iff_of_false (by simp) (by linarith)
    · rw [if_neg h]
      exact iff_of_true rfl (not_lt.mp h)
  · have h : ¬ ((501 * 1024 * 1024 : ℚ) / (1024 * 1024) < 500) := by norm_num
    simp only [compress_audio_if_needed, if_neg h]
  · have h : ((499 * 1024 * 1024 : ℚ) / (1024 * 1024) < 500) := by norm_num
    simp only [compress_audio_if_needed, if_pos h]

/-- The collision loop never lands on an existing path: whatever path
it returns was just checked not to exist. -/
lemma resolve_from_avoids_existing (existing : List String) (stem : String) :
    ∀ (fuel : ℕ) (path : String) (counter : ℕ) (p : String),
      resolve_from existing stem fuel path counter = some p → p ∉ existing := by
  intro fuel
  induction fuel with
  | zero =>
    intro path counter p h
    exact absurd h (by simp [resolve_from])
  | succ n ih =>
    intro path counter p h
    simp only [resolve_from] at h
    by_cases hmem : path ∈ existing
    · rw [if_pos hmem] at h
      exact ih _ _ _ h
    · rw [if_neg hmem] at h
      injection h with h
      subst h
      exact hmem

/-- C9: the export naming loop appends `_1`, `_2`, … until a free path
is found and never overwrites: a returned path is never among the
existing files, and with `talk.docx` and `talk_1.docx` existing the
stem `talk` resolves to `talk_2.docx`. -/
theorem export_collision_naming (existing : List String) (stem p : String) (fuel : ℕ)
    (h : resolve_output_path existing stem fuel = some p) :
    p ∉ existing ∧
      resolve_output_path ["talk.docx", "talk_1.docx"] "talk" 10 = some "talk_2.docx" :=
  ⟨resolve_from_avoids_existing existing stem fuel _ 1 p h, by rfl⟩

/-- Witness for C9 at the concrete collision scenario itself. -/
theorem export_collision_naming_witness :
    ("talk_2.docx" ∉ ["talk.docx", "talk_1.docx"]) ∧
      resolve_output_path ["talk.docx", "talk_1.docx"] "talk" 10 = some "talk_2.docx" :=
  export_collision_naming ["talk.docx", "talk_1.docx"] "talk" "talk_2.docx" 10 (by rfl)

/-- C6 counterexample: in a video run the conversion phase's final
unconditional render is 15.00 and the model-load phase then renders
0.00, so the full-run render sequence is not monotonically
non-decreasing. -/
theorem renders_not_monotone_with_video :
    ¬ List.Pairwise (· ≤ ·) (runRenders true (some 1) [] [] []) := by
  have hlist : runRenders true (some 1) [] [] []
      = [15, 0, 10, 10, 15, 70, 90, 90, 100] := by
    simp [runRenders, convert_video_to_audio]
  rw [hlist]
  decide

/-- C6 amended: in runs without a video-conversion step — given that
each wrapped phase self-reports local percentages within `[0, 100]` in
non-decreasing order — the rendered global percentages are
monotonically non-decreasing.  With a video step the sequence is not
monotone (the conversion phase ends at 15.00 and model load restarts
at 0.00). -/
theorem renders_monotone_without_video (duration : Option ℚ) (times : List ℚ)
    (il al : List ℚ)
    (hilb : ∀ p ∈ il, 0 ≤ p ∧ p ≤ 100) (hilm : List.Pairwise (· ≤ ·) il)
    (halb : ∀ p ∈ al, 0 ≤ p ∧ p ≤ 100) (halm : List.Pairwise (· ≤ ·) al) :
    List.Pairwise (· ≤ ·) (runRenders false duration times il al) := by
  have hIb := phase_block_bounds "Transcriptie" 15 70 (by norm_num) il hilb
  have hIp := phase_block_pairwise "Transcriptie" 15 70 (by norm_num) il hilm hilb
  have hAb := phase_block_bounds "Uitlijning" 70 90 (by norm_num) al halb
  have hAp := phase_block_pairwise "Uitlijning" 70 90 (by norm_num) al halm halb
  have hATb1 : ∀ x ∈ al.map (ProgressCapture.globalPct ⟨"Uitlijning", 70, 90⟩) ++ [90],
      x ≤ (90 : ℚ) := fun x hx => (hAb x hx).2
  have hATb2 : ∀ y ∈ ([90, 100] : List ℚ), (90 : ℚ) ≤ y := by decide
  have hAT := pairwise_le_append hAp (by decide) hATb1 hATb2
  have hIATb1 : ∀ x ∈ il.map (ProgressCapture.globalPct ⟨"Transcriptie", 15, 70⟩) ++ [70],
      x ≤ (70 : ℚ) := fun x hx => (hIb x hx).2
  have hIATb2 : ∀ y ∈ (al.map (ProgressCapture.globalPct ⟨"Uitlijning", 70, 90⟩) ++ [90]) ++
      [90, 100], (70 : ℚ) ≤ y := by
    intro y hy
    rcases List.mem_append.mp hy with hy | hy
    · linarith [(hAb y hy).1]
    · linarith [hATb2 y hy]
  have hIAT := pairwise_le_append hIp hAT hIATb1 hIATb2
  have hb1 : ∀ x ∈ ([0, 10, 10, 15] : List ℚ), x ≤ (15 : ℚ) := by decide
  have hb2 : ∀ y ∈ (il.map (ProgressCapture.globalPct ⟨"Transcriptie", 15, 70⟩) ++ [70]) ++
      ((al.map (ProgressCapture.globalPct ⟨"Uitlijning", 70, 90⟩) ++ [90]) ++ [90, 100]),
      (15 : ℚ) ≤ y := by
    intro y hy
    rcases List.mem_append.mp hy with hy | hy
    · linarith [(hIb y hy).1]
    · linarith [hIATb2 y hy]
  have hfull := pairwise_le_append (by decide) hIAT hb1 hb2
  simpa [runRenders] using hfull

/-- Witness for C6 amended: an audio-only run with well-behaved local
reports renders a non-decreasing sequence. -/
theorem renders_monotone_without_video_witness :
    List.Pairwise (· ≤ ·) (runRenders false none [] [0, 50, 100] [30]) :=
  renders_monotone_without_video none [] [0, 50, 100] [30]
    (by decide) (by decide) (by decide) (by decide)

end Transcribe
